import Mathlib

/-!
Verification of the decision pipeline of `src/agent/llm_player.py`.

The embedding models host-language values explicitly:
machine floats are modelled as exact rationals (every float literal in the
source - `1.0`, `1.5`, `100.0` - is exactly representable, and the pipeline
performs no lossy float arithmetic relevant to the statements below);
`json.loads` is modelled by the executable parser `loadsL` over character
lists (restricted to the JSON grammar: the non-standard `NaN` / `Infinity`
extensions of the host decoder are not modelled, and duplicate object keys
are kept in order with last-occurrence lookup, matching host dict update
semantics on lookup); fallible host code returns `Option` / `Except`.
-/

namespace PokeLLM

/-- JSON-like value produced by parsing oracle output.  Integral and
non-integral numbers are kept apart because the host language distinguishes
`int` from `float` and the validator's integer check depends on it.
Booleans are also kept apart, but the validator treats them as integers,
mirroring the host language where `bool` is a subtype of `int`. -/
inductive JVal where
  | jnull
  | jbool (b : Bool)
  | jint (n : Int)
  | jfloat (q : ℚ)
  | jstr (s : String)
  | jarr (elems : List JVal)
  | jobj (members : List (String × JVal))

/-- JSON whitespace accepted between tokens by the host decoder. -/
def jsonWs (c : Char) : Bool :=
  c = ' ' || c = '\t' || c = '\n' || c = '\r'

/-- Drop leading JSON whitespace. -/
def skipWs (cs : List Char) : List Char :=
  cs.dropWhile jsonWs

/-- Value of a hexadecimal digit, if any. -/
def hexVal (c : Char) : Option Nat :=
  let n := c.toNat
  if 48 ≤ n ∧ n ≤ 57 then some (n - 48)
  else if 97 ≤ n ∧ n ≤ 102 then some (n - 87)
  else if 65 ≤ n ∧ n ≤ 70 then some (n - 55)
  else none

/-- Body of a JSON string after the opening quote: accumulates characters
until the closing quote, resolving escape sequences and rejecting raw
control characters, as the strict host decoder does.  Lone `\uXXXX` escapes
map through `Char.ofNat`; surrogate-pair recombination is not modelled
(no claim touches it). -/
def parseStringBody : List Char → List Char → Option (String × List Char)
  | acc, '"' :: rest => some (String.mk acc.reverse, rest)
  | acc, '\\' :: '"' :: rest => parseStringBody ('"' :: acc) rest
  | acc, '\\' :: '\\' :: rest => parseStringBody ('\\' :: acc) rest
  | acc, '\\' :: '/' :: rest => parseStringBody ('/' :: acc) rest
  | acc, '\\' :: 'b' :: rest => parseStringBody ('\x08' :: acc) rest
  | acc, '\\' :: 'f' :: rest => parseStringBody ('\x0c' :: acc) rest
  | acc, '\\' :: 'n' :: rest => parseStringBody ('\n' :: acc) rest
  | acc, '\\' :: 'r' :: rest => parseStringBody ('\r' :: acc) rest
  | acc, '\\' :: 't' :: rest => parseStringBody ('\t' :: acc) rest
  | acc, '\\' :: 'u' :: a :: b :: c :: d :: rest =>
    match hexVal a, hexVal b, hexVal c, hexVal d with
    | some x, some y, some z, some w =>
      parseStringBody (Char.ofNat (((x * 16 + y) * 16 + z) * 16 + w) :: acc) rest
    | _, _, _, _ => none
  | _, '\\' :: _ => none
  | acc, c :: rest => if c.toNat < 32 then none else parseStringBody (c :: acc) rest
  | _, [] => none

/-- Numeric value of a digit run. -/
def digitsToNat (ds : List Char) : Nat :=
  ds.foldl (fun a c => a * 10 + (c.toNat - 48)) 0

/-- JSON number per the decoder grammar
`-?(0|[1-9][0-9]*)(\.[0-9]+)?([eE][+-]?[0-9]+)?`: a leading `0` is not
followed by further integer digits, and a fraction dot or exponent marker is
only consumed when digits follow (otherwise it is left as trailing input,
exactly as the host regex-based scanner behaves).  A number with a fraction
or exponent is a float; otherwise it is an int. -/
def parseNumber (cs : List Char) : Option (JVal × List Char) :=
  let neg : Bool := cs.head? == some '-'
  let cs1 : List Char := if neg then cs.tail else cs
  match cs1 with
  | c :: _ =>
    if ¬ c.isDigit then none
    else
      let (intDs, rest1) :=
        if c = '0' then (['0'], cs1.tail)
        else (cs1.takeWhile Char.isDigit, cs1.dropWhile Char.isDigit)
      let (fracDs, rest2) :=
        match rest1 with
        | '.' :: r =>
          let ds := r.takeWhile Char.isDigit
          if ds.isEmpty then ([], rest1) else (ds, r.dropWhile Char.isDigit)
        | _ => ([], rest1)
      let (hasExp, expNeg, expDs, rest3) :=
        match rest2 with
        | 'e' :: '+' :: r =>
          let ds := r.takeWhile Char.isDigit
          if ds.isEmpty then (false, false, [], rest2)
          else (true, false, ds, r.dropWhile Char.isDigit)
        | 'e' :: '-' :: r =>
          let ds := r.takeWhile Char.isDigit
          if ds.isEmpty then (false, false, [], rest2)
          else (true, true, ds, r.dropWhile Char.isDigit)
        | 'e' :: r =>
          let ds := r.takeWhile Char.isDigit
          if ds.isEmpty then (false, false, [], rest2)
          else (true, false, ds, r.dropWhile Char.isDigit)
        | 'E' :: '+' :: r =>
          let ds := r.takeWhile Char.isDigit
          if ds.isEmpty then (false, false, [], rest2)
          else (true, false, ds, r.dropWhile Char.isDigit)
        | 'E' :: '-' :: r =>
          let ds := r.takeWhile Char.isDigit
          if ds.isEmpty then (false, false, [], rest2)
          else (true, true, ds, r.dropWhile Char.isDigit)
        | 'E' :: r =>
          let ds := r.takeWhile Char.isDigit
          if ds.isEmpty then (false, false, [], rest2)
          else (true, false, ds, r.dropWhile Char.isDigit)
        | _ => (false, false, [], rest2)
      if fracDs.isEmpty ∧ ¬ hasExp then
        let n : Int := Int.ofNat (digitsToNat intDs)
        some (.jint (if neg then -n else n), rest1)
      else
        let e : Int := if expNeg then -(Int.ofNat (digitsToNat expDs))
                       else Int.ofNat (digitsToNat expDs)
        let mag : ℚ :=
          ((digitsToNat intDs : ℚ) + (digitsToNat fracDs : ℚ) / (10 : ℚ) ^ fracDs.length)
            * (10 : ℚ) ^ e
        some (.jfloat (if neg then -mag else mag), rest3)
  | [] => none

mutual

/-- JSON value parser with fuel (the fuel bounds nesting depth; callers pass
one more than the input length, which suffices since each nesting level
consumes at least one character). -/
def parseVal : Nat → List Char → Option (JVal × List Char)
  | 0, _ => none
  | fuel + 1, cs =>
    match skipWs cs with
    | 'n' :: 'u' :: 'l' :: 'l' :: r => some (.jnull, r)
    | 't' :: 'r' :: 'u' :: 'e' :: r => some (.jbool true, r)
    | 'f' :: 'a' :: 'l' :: 's' :: 'e' :: r => some (.jbool false, r)
    | '"' :: r =>
      match parseStringBody [] r with
      | some (s, r2) => some (.jstr s, r2)
      | none => none
    | '[' :: r =>
      (match skipWs r with
       | ']' :: r2 => some (.jarr [], r2)
       | r2 => parseArrItems fuel [] r2)
    | '{' :: r =>
      (match skipWs r with
       | '}' :: r2 => some (.jobj [], r2)
       | r2 => parseObjItems fuel [] r2)
    | cs2 => parseNumber cs2

/-- Comma-separated array items after at least one is required. -/
def parseArrItems : Nat → List JVal → List Char → Option (JVal × List Char)
  | 0, _, _ => none
  | fuel + 1, acc, cs =>
    match parseVal fuel cs with
    | some (v, r) =>
      (match skipWs r with
       | ',' :: r2 => parseArrItems fuel (v :: acc) r2
       | ']' :: r2 => some (.jarr (v :: acc).reverse, r2)
       | _ => none)
    | none => none

/-- Comma-separated object members after at least one is required. -/
def parseObjItems : Nat → List (String × JVal) → List Char → Option (JVal × List Char)
  | 0, _, _ => none
  | fuel + 1, acc, cs =>
    match skipWs cs with
    | '"' :: r =>
      (match parseStringBody [] r with
       | some (k, r1) =>
         (match skipWs r1 with
          | ':' :: r2 =>
            (match parseVal fuel r2 with
             | some (v, r3) =>
               (match skipWs r3 with
                | ',' :: r4 => parseObjItems fuel ((k, v) :: acc) r4
                | '}' :: r4 => some (.jobj ((k, v) :: acc).reverse, r4)
                | _ => none)
             | none => none)
          | _ => none)
       | none => none)
    | _ => none

end

/-- Model of `json.loads` on a character list: parse one value and require
only whitespace to remain. -/
def loadsL (cs : List Char) : Option JVal :=
  match parseVal (cs.length + 1) cs with
  | some (v, rest) => if (skipWs rest).isEmpty then some v else none
  | none => none

/-- Whitespace removed by the host language's default string strip (the
ASCII whitespace characters; exotic unicode space characters are not
modelled, no claim touches them). -/
def pyWs (c : Char) : Bool :=
  c = ' ' || c = '\t' || c = '\n' || c = '\r' || c = '\x0b' || c = '\x0c'

/-- Strip leading and trailing whitespace (`text.strip()`). -/
def pyStrip (cs : List Char) : List Char :=
  ((cs.dropWhile pyWs).reverse.dropWhile pyWs).reverse

/-- Inner loop of `_extract_json`'s scan: from an opening brace, track
nesting depth (`+1` at each brace open, `-1` at each brace close) and return
the offset of the character at which depth first returns to zero. -/
def findBalanced : List Char → Int → Nat → Option Nat
  | [], _, _ => none
  | c :: rest, depth, i =>
    if c = '{' then findBalanced rest (depth + 1) (i + 1)
    else if c = '}' then
      if depth - 1 = 0 then some i else findBalanced rest (depth - 1) (i + 1)
    else findBalanced rest depth (i + 1)

/-- Body of one outer-loop iteration of `_extract_json`'s scan: at a
position holding an opening brace, take the minimal depth-balanced chunk
from there and keep it when it parses as a JSON object.  `none` covers all
the ways the iteration falls through to the next position: no opening
brace here, no balanced close, or a chunk that does not parse as an object
(the source `break`s out of the inner loop in that last case). -/
def goodAt : List Char → Option JVal
  | [] => none
  | c :: rest =>
    if c = '{' then
      match findBalanced (c :: rest) 0 0 with
      | some i =>
        (match loadsL ((c :: rest).take (i + 1)) with
         | some (.jobj kvs) => some (.jobj kvs)
         | _ => none)
      | none => none
    else none

/-- Outer loop of `_extract_json`'s scan: try each start position from the
left, returning the first object found. -/
def extractScan : List Char → Option JVal
  | [] => none
  | c :: rest =>
    match goodAt (c :: rest) with
    | some v => some v
    | none => extractScan rest

/-- Model of `_extract_json`: strip, prefer a clean whole-text parse when it
yields an object, otherwise scan for the first embedded balanced object.
`none` models the `no_json_object_found` error. -/
def extractJson (t : String) : Option JVal :=
  match loadsL (pyStrip t.toList) with
  | some (.jobj kvs) => some (.jobj kvs)
  | _ => extractScan (pyStrip t.toList)

/-- Lookup in a JSON object (`dict.get`): with duplicate keys the last
occurrence wins, matching host dict construction. -/
def objGet (kvs : List (String × JVal)) (k : String) : Option JVal :=
  match kvs.reverse.find? (fun p => p.1 == k) with
  | some p => some p.2
  | none => none

/-- Host-language `isinstance(x, int)` view of a JSON value: ints are ints,
and booleans count as ints too (`bool` is a subtype of `int` there, `True`
reading as `1` and `False` as `0`).  Floats, strings, null, containers are
not ints. -/
def asInt : JVal → Option Int
  | .jint n => some n
  | .jbool b => some (if b then 1 else 0)
  | _ => none

/-- Upstream move object (the fields of `poke_env`'s `Move` that the encoder
reads).  Fields the source reads defensively are `Option`s, with `none`
covering both a `None` attribute and a failed read. -/
structure MoveSrc where
  id : String
  name : String
  type_ : Option String
  base_power : Option Int
  accuracy : Option ℚ
  priority : Option Int
  category : Option String
  pp : Option Int
deriving DecidableEq

/-- Upstream Pokémon object (the fields of `poke_env`'s `Pokemon` that the
encoder reads). -/
structure PokemonSrc where
  species : String
  types : List String
  current_hp : Option Int
  max_hp : Option Int
  status : Option String
deriving DecidableEq

/-- Inbound battle snapshot: the attributes `choose_move` reads from the
battle-client object. -/
structure Battle where
  active_pokemon : Option PokemonSrc
  opponent_active_pokemon : Option PokemonSrc
  available_moves : List MoveSrc
  available_switches : List PokemonSrc
  force_switch : Bool
  turn : Int
  weather : Option String
  terrain : Option String
deriving DecidableEq

/-- Encoded move candidate (`RowMove`).  The `kind` discriminator of the
source dataclass is carried by the `Row` wrapper below. -/
structure RowMove where
  index : Nat
  id : String
  name : String
  type_ : String
  base_power : Int
  accuracy : ℚ
  priority : Int
  category : String
  pp : Int
  is_stab : Bool
deriving DecidableEq

/-- Encoded switch candidate (`RowSwitch`). -/
structure RowSwitch where
  index : Nat
  species : String
  types : List String
  hp_pct : Int
  status : Option String
deriving DecidableEq

/-- A row of the candidate table handed to the oracle and validator. -/
inductive Row where
  | mv (r : RowMove)
  | sw (r : RowSwitch)
deriving DecidableEq

/-- Discriminator field of a row (`r["kind"]`). -/
def Row.kind : Row → String
  | .mv _ => "move"
  | .sw _ => "switch"

/-- Model of `_move_accuracy`: `None`/`0` mean "always hits" and become
`1.0`; a value above `1` is taken to be on a 0-100 scale and divided by
`100`; anything else passes through. -/
def moveAccuracy (acc : Option ℚ) : ℚ :=
  match acc with
  | none => 1
  | some a => if a = 0 then 1 else if a ≤ 1 then a else a / 100

/-- Model of `_move_base_power`: default `0`, floored at `0`. -/
def moveBasePower (bp : Option Int) : Int :=
  max 0 (bp.getD 0)

/-- Model of `_is_stab`: true when the move's type name is among the acting
Pokémon's own type names. -/
def isStab (mType : Option String) (me : Option PokemonSrc) : Bool :=
  match me, mType with
  | some p, some t => p.types.contains t
  | _, _ => false

/-- Model of `_move_row`. -/
def moveRow (i : Nat) (m : MoveSrc) (me : Option PokemonSrc) : RowMove :=
  { index := i
    id := m.id.toLower
    name := m.name.toLower
    type_ := m.type_.getD "UNKNOWN"
    base_power := moveBasePower m.base_power
    accuracy := moveAccuracy m.accuracy
    priority := m.priority.getD 0
    category := m.category.getD "STATUS"
    pp := m.pp.getD 0
    is_stab := isStab m.type_ me }

/-- Round-half-to-even, the host language's `round` on an exact value. -/
def pyRound (q : ℚ) : Int :=
  let f := ⌊q⌋
  let r := q - f
  if r < 1 / 2 then f
  else if 1 / 2 < r then f + 1
  else if f % 2 = 0 then f else f + 1

/-- Model of `_hp_pct`: percentage of remaining health, clamped to
`[0, 100]`, defaulting to `100` when either bound is unavailable or the
maximum is zero. -/
def hpPct (p : PokemonSrc) : Int :=
  match p.current_hp, p.max_hp with
  | some c, some m =>
    if m = 0 then 100 else max 0 (min 100 (pyRound ((100 * (c : ℚ)) / (m : ℚ))))
  | _, _ => 100

/-- Model of `_switch_row`. -/
def switchRow (i : Nat) (p : PokemonSrc) : RowSwitch :=
  { index := i
    species := p.species.toLower
    types := p.types
    hp_pct := hpPct p
    status := p.status }

/-- Compact summary of one Pokémon (`dump_mon`). -/
structure MonSummary where
  species : String
  types : List String
  hp_pct : Option Int
  status : Option String
deriving DecidableEq

/-- Model of `dump_mon` inside `choose_move`. -/
def dumpMon : Option PokemonSrc → MonSummary
  | none => { species := "unknown", types := [], hp_pct := none, status := none }
  | some p =>
    { species := p.species.toLower, types := p.types
      hp_pct := some (hpPct p), status := p.status }

/-- The `state` summary dict built by `choose_move`. -/
structure StateSummary where
  turn : Int
  force_switch : Bool
  my_active : MonSummary
  opp_active : MonSummary
  weather : String
  terrain : String
deriving DecidableEq

/-- Model of the `state` construction in `choose_move`. -/
def stateOf (b : Battle) : StateSummary :=
  { turn := b.turn
    force_switch := b.force_switch
    my_active := dumpMon b.active_pokemon
    opp_active := dumpMon b.opponent_active_pokemon
    weather := b.weather.getD "none"
    terrain := b.terrain.getD "none" }

/-- Host truthiness fallback `a or b` on an integer. -/
def pyOrInt (a b : Int) : Int :=
  if a = 0 then b else a

/-- Host truthiness fallback `a or b` on a rational (modelling a float). -/
def pyOrQ (a b : ℚ) : ℚ :=
  if a = 0 then b else a

/-- Model of `_score_move_row`: expected-damage heuristic
`bp * clamp(acc, 0, 1) * (1.5 if STAB else 1.0)`. -/
def scoreMoveRow (r : RowMove) : ℚ :=
  (pyOrInt r.base_power 0 : ℚ) * max 0 (min 1 (pyOrQ r.accuracy 0))
    * (if r.is_stab then 3 / 2 else 1)

/-- Placeholder row for out-of-range indexing (never reached on the indices
actually used). -/
def dRowMove : RowMove :=
  { index := 0, id := "", name := "", type_ := "UNKNOWN", base_power := 0
    accuracy := 0, priority := 0, category := "STATUS", pp := 0, is_stab := false }

/-- Score of the row at a position of the move-candidate list. -/
def scoreAt (rows : List RowMove) (i : Nat) : ℚ :=
  scoreMoveRow (rows.getD i dRowMove)

/-- Host `max(range(n), key=f)`: left fold that replaces the best index only
on a strictly greater key, so the first maximal index wins. -/
def pyMaxIdx (f : Nat → ℚ) (n : Nat) : Nat :=
  (List.range n).foldl (fun best i => if f best < f i then i else best) 0

/-- Index chosen by the fallback ranking
(`max(range(len(move_rows)), key=...)`). -/
def argmaxScore (rows : List RowMove) : Nat :=
  pyMaxIdx (scoreAt rows) rows.length

/-- Reason codes of `_validate_decision`. -/
inductive VResult where
  | ok
  | notDict
  | badAction
  | indexNotInt
  | mustSwitch
  | idxOutMove
  | idxOutSwitch
deriving DecidableEq

/-- Number of move rows in a candidate table
(`sum(1 for r in rows if r["kind"] == "move")`). -/
def nMovesIn (rows : List Row) : Nat :=
  rows.countP (fun r => r.kind == "move")

/-- Number of switch rows in a candidate table. -/
def nSwitchesIn (rows : List Row) : Nat :=
  rows.countP (fun r => r.kind == "switch")

/-- Host equality of a looked-up field against a string constant
(`dec.get("action") == s`): only a string value can compare equal. -/
def isAct (v : Option JVal) (s : String) : Bool :=
  match v with
  | some (.jstr t) => t == s
  | _ => false

/-- Model of `_validate_decision`: structural checks first (`bad_action`,
`index_not_int`), then the forced-switch constraint (`must_switch`), then
the range checks against the candidate counts. -/
def validateDecision (dec : JVal) (rows : List Row) (st : StateSummary) : VResult :=
  match dec with
  | .jobj kvs =>
    let act := objGet kvs "action"
    let actMove := isAct act "move"
    let actSwitch := isAct act "switch"
    let actForce := isAct act "force_switch"
    if actMove = false ∧ actSwitch = false ∧ actForce = false then .badAction
    else
      match (objGet kvs "index").bind asInt with
      | none => .indexNotInt
      | some i =>
        if st.force_switch = true ∧ actMove = true then .mustSwitch
        else if (actMove = true ∨ actForce = true)
            ∧ (i < 0 ∨ (nMovesIn rows : Int) ≤ i) then .idxOutMove
        else if actSwitch = true ∧ (i < 0 ∨ (nSwitchesIn rows : Int) ≤ i) then
          .idxOutSwitch
        else .ok
  | _ => .notDict

/-- Failure modes of `_llm_decide`, surfaced as exceptions in the source and
all handled identically by the fallback. -/
inductive OracleErr where
  | forcedBad
  | noClient
  | noJson
  | invalid (r : VResult)
deriving DecidableEq

/-- Model of `_llm_decide`.  `forceBad` models the forced-bad-output test
switch, `hasClient` models whether an oracle client is configured, and
`raw` models the free-text response of the external service (the network
call itself is outside the program).  A validated decision is returned as
is; every failure becomes an error for the caller's fallback. -/
def llmDecide (forceBad hasClient : Bool) (raw : String) (rows : List Row)
    (st : StateSummary) : Except OracleErr JVal :=
  if forceBad = true then .error .forcedBad
  else if hasClient = false then .error .noClient
  else
    match extractJson raw with
    | none => .error .noJson
    | some dec =>
      match validateDecision dec rows st with
      | .ok => .ok dec
      | r => .error (.invalid r)

/-- A decision as consumed after the oracle stage: the `"action"` and
`"index"` entries of the decision dict.  The fallback branch constructs
these directly. -/
structure Decision where
  action : String
  index : Int
deriving DecidableEq

/-- Field access `dec["action"]` / `dec["index"]` on a decision dict.  The
defaults are unreachable for the dicts that actually flow here: the
validator guarantees an object with a string action and an integer index. -/
def toDecision (dec : JVal) : Decision :=
  { action :=
      match dec with
      | .jobj kvs =>
        (match objGet kvs "action" with
         | some (.jstr s) => s
         | _ => "")
      | _ => ""
    index :=
      match dec with
      | .jobj kvs =>
        (match (objGet kvs "index").bind asInt with
         | some i => i
         | none => 0)
      | _ => 0 }

/-- The fallback decision of `choose_move`'s `except` branch: first switch
on a forced switch with switch candidates, else best-scored move when move
candidates exist, else move index `0` as a last resort. -/
def fallbackDec (fs : Bool) (moveRows : List RowMove) (switchRows : List RowSwitch) :
    Decision :=
  if fs = true ∧ switchRows ≠ [] then { action := "switch", index := 0 }
  else if moveRows ≠ [] then
    { action := "move", index := (argmaxScore moveRows : Int) }
  else { action := "move", index := 0 }

/-- Outbound action handed to the battle client: an order built from the
original legal-moves list, one built from the original legal-switches list,
or delegation to the client's own random-choice fallback. -/
inductive BattleOrder where
  | useMove (i : Nat)
  | useSwitch (i : Nat)
  | randomChoice
deriving DecidableEq

/-- Defensive clamp `max(0, min(idx, n - 1))` before indexing a list of
length `n`. -/
def clampIdx (idx : Int) (n : Nat) : Nat :=
  (max 0 (min idx ((n : Int) - 1))).toNat

/-- Move candidate table of a battle (`move_rows`). -/
def moveRowsOf (b : Battle) : List RowMove :=
  b.available_moves.enum.map (fun p => moveRow p.1 p.2 b.active_pokemon)

/-- Switch candidate table of a battle (`switch_rows`). -/
def switchRowsOf (b : Battle) : List RowSwitch :=
  b.available_switches.enum.map (fun p => switchRow p.1 p.2)

/-- Full candidate table in oracle order: move rows then switch rows
(`rows_for_llm`). -/
def rowsOf (b : Battle) : List Row :=
  (moveRowsOf b).map Row.mv ++ (switchRowsOf b).map Row.sw

/-- Emission step of `choose_move`: translate the decision back into the
original lists, clamped; when neither applies, play the first move if any,
else defer to the client's random choice. -/
def emitOrder (dec : Decision) (moveRows : List RowMove) (switchRows : List RowSwitch)
    (moves : List MoveSrc) (switches : List PokemonSrc) : BattleOrder :=
  if (dec.action = "move" ∨ dec.action = "force_switch") ∧ moveRows ≠ [] then
    .useMove (clampIdx dec.index moves.length)
  else if dec.action = "switch" ∧ switchRows ≠ [] then
    .useSwitch (clampIdx dec.index switches.length)
  else if moves ≠ [] then .useMove 0
  else .randomChoice

/-- The decision `choose_move` ends up with after the `try`/`except` block:
the validated oracle decision on success, the fallback decision on any
failure. -/
def decisionOf (b : Battle) (forceBad hasClient : Bool) (raw : String) : Decision :=
  match llmDecide forceBad hasClient raw (rowsOf b) (stateOf b) with
  | .ok d => toDecision d
  | .error _ => fallbackDec (stateOf b).force_switch (moveRowsOf b) (switchRowsOf b)

/-- Model of `LLMPlayer.choose_move`: encode, decide (oracle or fallback),
emit. -/
def chooseMove (b : Battle) (forceBad hasClient : Bool) (raw : String) : BattleOrder :=
  emitOrder (decisionOf b forceBad hasClient raw) (moveRowsOf b) (switchRowsOf b)
    b.available_moves b.available_switches

/-- Encoding stage with the battle object threaded as explicit state: the
stage only reads from it. -/
def encodeStage (b : Battle) :
    (List RowMove × List RowSwitch × StateSummary) × Battle :=
  ((moveRowsOf b, switchRowsOf b, stateOf b), b)

/-- Oracle-or-fallback stage with the battle object threaded as explicit
state. -/
def decideStage (forceBad hasClient : Bool) (raw : String) (mrows : List RowMove)
    (srows : List RowSwitch) (st : StateSummary) (b : Battle) : Decision × Battle :=
  (match llmDecide forceBad hasClient raw (mrows.map Row.mv ++ srows.map Row.sw) st with
   | .ok d => toDecision d
   | .error _ => fallbackDec st.force_switch mrows srows, b)

/-- Emission stage with the battle object threaded as explicit state. -/
def emitStage (d : Decision) (mrows : List RowMove) (srows : List RowSwitch)
    (b : Battle) : BattleOrder × Battle :=
  (emitOrder d mrows srows b.available_moves b.available_switches, b)

/-- `choose_move` with the inbound battle object threaded through every
stage as explicit state, so that mutation (were there any) would show in
the returned battle. -/
def chooseMoveFrame (b : Battle) (forceBad hasClient : Bool) (raw : String) :
    BattleOrder × Battle :=
  let (enc, b1) := encodeStage b
  let (d, b2) := decideStage forceBad hasClient raw enc.1 enc.2.1 enc.2.2 b1
  emitStage d enc.1 enc.2.1 b2

/-- Unfolding one step of the first-maximum search. -/
lemma pyMaxIdx_succ (f : Nat → ℚ) (n : Nat) :
    pyMaxIdx f (n + 1) =
      if f (pyMaxIdx f n) < f n then n else pyMaxIdx f n := by
  unfold pyMaxIdx
  rw [List.range_succ, List.foldl_append]
  simp

/-- The index returned by the host `max(range(n), key=f)` pattern is in
range, carries a maximal key, and is the first index doing so (every
earlier index has a strictly smaller key). -/
lemma pyMaxIdx_spec (f : Nat → ℚ) :
    ∀ n, 0 < n →
      pyMaxIdx f n < n ∧ (∀ j, j < n → f j ≤ f (pyMaxIdx f n)) ∧
        (∀ j, j < pyMaxIdx f n → f j < f (pyMaxIdx f n)) := by
  intro n
  induction n with
  | zero => intro h; exact absurd h (by omega)
  | succ n ih =>
    intro _
    by_cases hn : n = 0
    · subst hn
      have h1 : pyMaxIdx f 1 = 0 := by
        rw [pyMaxIdx_succ]
        have h0 : pyMaxIdx f 0 = 0 := rfl
        rw [h0, if_neg (lt_irrefl _)]
      rw [h1]
      refine ⟨by omega, ?_, by omega⟩
      intro j hj
      interval_cases j
      exact le_refl _
    · obtain ⟨ih1, ih2, ih3⟩ := ih (Nat.pos_of_ne_zero hn)
      rw [pyMaxIdx_succ]
      by_cases hcmp : f (pyMaxIdx f n) < f n
      · rw [if_pos hcmp]
        refine ⟨by omega, ?_, ?_⟩
        · intro j hj
          rcases Nat.lt_succ_iff_lt_or_eq.mp hj with h | h
          · exact le_of_lt (lt_of_le_of_lt (ih2 j h) hcmp)
          · subst h; exact le_refl _
        · intro j hj
          exact lt_of_le_of_lt (ih2 j hj) hcmp
      · rw [if_neg hcmp]
        refine ⟨by omega, ?_, ih3⟩
        intro j hj
        rcases Nat.lt_succ_iff_lt_or_eq.mp hj with h | h
        · exact ih2 j h
        · subst h; exact le_of_not_lt hcmp

/-- Sample 100-base-power STAB move row with certain accuracy. -/
def sampleStab : RowMove :=
  { dRowMove with base_power := 100, accuracy := 1, is_stab := true }

/-- The same row without the STAB flag. -/
def sampleNoStab : RowMove :=
  { sampleStab with is_stab := false }

/-- C5: the heuristic score is exactly
`base_power * clamp(accuracy, 0, 1) * (1.5 if STAB else 1.0)` as a pure
function of the row; status moves (base power 0) score 0; a 100-base-power
STAB move with accuracy 1.0 scores exactly 150 while the same move without
STAB scores 100; and the maximum-score search over a move-candidate list
returns an in-range index whose score is maximal, breaking ties by the
lowest index. -/
theorem score_move_spec :
    (∀ r : RowMove, scoreMoveRow r =
        (r.base_power : ℚ) * max 0 (min 1 r.accuracy)
          * (if r.is_stab then 3 / 2 else 1)) ∧
    (∀ r : RowMove, r.base_power = 0 → scoreMoveRow r = 0) ∧
    scoreMoveRow sampleStab = 150 ∧
    scoreMoveRow sampleNoStab = 100 ∧
    (∀ rows : List RowMove, rows ≠ [] →
      argmaxScore rows < rows.length ∧
      (∀ j, j < rows.length → scoreAt rows j ≤ scoreAt rows (argmaxScore rows)) ∧
      (∀ j, j < argmaxScore rows → scoreAt rows j < scoreAt rows (argmaxScore rows))) := by
  refine ⟨?_, ?_,
    by norm_num [scoreMoveRow, pyOrInt, pyOrQ, sampleStab, sampleNoStab, dRowMove],
    by norm_num [scoreMoveRow, pyOrInt, pyOrQ, sampleStab, sampleNoStab, dRowMove], ?_⟩
  · intro r
    unfold scoreMoveRow pyOrInt pyOrQ
    by_cases hb : r.base_power = 0
    · simp [hb]
    · rw [if_neg hb]
      by_cases ha : r.accuracy = 0
      · simp [ha]
      · rw [if_neg ha]
  · intro r hb
    unfold scoreMoveRow pyOrInt
    simp [hb]
  · intro rows hne
    have hpos : 0 < rows.length := List.length_pos.mpr hne
    exact pyMaxIdx_spec (scoreAt rows) rows.length hpos

/-- Witness for C5 at a concrete two-row table: the search result is in
range and dominates the other row's score. -/
theorem score_move_spec_witness :
    argmaxScore [sampleNoStab, sampleStab] < 2 ∧
      scoreAt [sampleNoStab, sampleStab] 0 ≤
        scoreAt [sampleNoStab, sampleStab] (argmaxScore [sampleNoStab, sampleStab]) := by
  obtain ⟨h1, h2, _⟩ :=
    score_move_spec.2.2.2.2 [sampleNoStab, sampleStab] (by decide)
  exact ⟨h1, h2 0 (by decide)⟩

/-- Unfolding lemma for `moveAccuracy` on a present raw value. -/
lemma moveAccuracy_some (a : ℚ) :
    moveAccuracy (some a) = if a = 0 then 1 else if a ≤ 1 then a else a / 100 := rfl

/-- Upstream move reporting a raw accuracy of 150, above the 0-100 scale. -/
def accCexMove : MoveSrc :=
  { id := "zapcannon", name := "Zap Cannon", type_ := some "ELECTRIC"
    base_power := some 120, accuracy := some 150, priority := some 0
    category := some "SPECIAL", pp := some 5 }

/-- Counterexample to C6 as stated: a raw accuracy of 150 is above 1, so it
is divided by 100, but the encoded accuracy 1.5 still falls outside
`[0, 1]` - the encoder's scale correction only lands inside the unit
interval for raw values up to 100. -/
theorem accuracy_range_cex :
    ¬(0 ≤ (moveRow 0 accCexMove none).accuracy ∧
        (moveRow 0 accCexMove none).accuracy ≤ 1) := by
  intro h
  have hv : (moveRow 0 accCexMove none).accuracy = 3 / 2 := by
    norm_num [moveRow, accCexMove, moveAccuracy]
  rw [hv] at h
  norm_num at h

/-- C6 amended: for every raw accuracy that is absent or lies on one of the
two upstream scales (a fraction in `[0, 1]` or a percentage in `(1, 100]`,
i.e. any raw value in `[0, 100]`), the encoded accuracy lies in `[0, 1]`;
absent and zero raw values map to exactly 1, and raw values above 1 are
divided by 100. -/
theorem accuracy_range_amended (i : Nat) (m : MoveSrc) (me : Option PokemonSrc)
    (h : ∀ a, m.accuracy = some a → 0 ≤ a ∧ a ≤ 100) :
    (0 ≤ (moveRow i m me).accuracy ∧ (moveRow i m me).accuracy ≤ 1) ∧
    (moveRow i { m with accuracy := none } me).accuracy = 1 ∧
    (moveRow i { m with accuracy := some 0 } me).accuracy = 1 ∧
    (∀ a, m.accuracy = some a → 1 < a → (moveRow i m me).accuracy = a / 100) := by
  refine ⟨?_, by norm_num [moveRow, moveAccuracy], by norm_num [moveRow, moveAccuracy], ?_⟩
  · show 0 ≤ moveAccuracy m.accuracy ∧ moveAccuracy m.accuracy ≤ 1
    rcases hm : m.accuracy with _ | a
    · norm_num [moveAccuracy]
    · obtain ⟨h0, h100⟩ := h a hm
      rw [moveAccuracy_some]
      by_cases hz : a = 0
      · simp [hz]
      · rw [if_neg hz]
        by_cases h1 : a ≤ 1
        · simp [h1, h0]
        · rw [if_neg h1]
          constructor
          · positivity
          · rw [div_le_one (by norm_num)]
            exact h100
  · intro a hm ha
    show moveAccuracy m.accuracy = a / 100
    rw [hm, moveAccuracy_some,
      if_neg (by intro hz; rw [hz] at ha; norm_num at ha),
      if_neg (by exact not_le.mpr ha)]

/-- Upstream move with a percent-scale accuracy of 85. -/
def accWMove : MoveSrc :=
  { id := "rockslide", name := "Rock Slide", type_ := some "ROCK"
    base_power := some 75, accuracy := some 85, priority := some 0
    category := some "PHYSICAL", pp := some 10 }

/-- Witness for the amended C6 at raw accuracy 85: the encoded accuracy is
inside the unit interval. -/
theorem accuracy_range_amended_witness :
    0 ≤ (moveRow 0 accWMove none).accuracy ∧ (moveRow 0 accWMove none).accuracy ≤ 1 := by
  have h := accuracy_range_amended 0 accWMove none
    (by intro a ha; injection ha with ha'; subst ha'; norm_num)
  exact h.1

/-- C3: with the forced-switch flag unset, for every structurally
well-formed decision (action among the three allowed strings, integer
index) the validator reports `index_out_of_range_move` exactly when the
action is move or force_switch and the index is outside the move-candidate
range, reports `index_out_of_range_switch` exactly when the action is
switch and the index is outside the switch-candidate range, and passes
exactly on the in-range combinations; a decision whose action is not one of
the three fails with `bad_action`, and one whose index is not an integer
fails with `index_not_int`. -/
theorem validate_ranges (kvs : List (String × JVal)) (rows : List Row)
    (st : StateSummary) (a : String) (i : Int)
    (hst : st.force_switch = false)
    (ha : objGet kvs "action" = some (.jstr a))
    (haS : a = "move" ∨ a = "switch" ∨ a = "force_switch")
    (hi : (objGet kvs "index").bind asInt = some i) :
    (validateDecision (.jobj kvs) rows st = .idxOutMove ↔
      (a = "move" ∨ a = "force_switch") ∧ (i < 0 ∨ (nMovesIn rows : Int) ≤ i)) ∧
    (validateDecision (.jobj kvs) rows st = .idxOutSwitch ↔
      a = "switch" ∧ (i < 0 ∨ (nSwitchesIn rows : Int) ≤ i)) ∧
    (validateDecision (.jobj kvs) rows st = .ok ↔
      ((a = "move" ∨ a = "force_switch") ∧ 0 ≤ i ∧ i < (nMovesIn rows : Int)) ∨
        (a = "switch" ∧ 0 ≤ i ∧ i < (nSwitchesIn rows : Int))) ∧
    (∀ kvs2 : List (String × JVal),
      (∀ s, objGet kvs2 "action" = some (.jstr s) →
          s ≠ "move" ∧ s ≠ "switch" ∧ s ≠ "force_switch") →
      validateDecision (.jobj kvs2) rows st = .badAction) ∧
    (∀ kvs3 : List (String × JVal),
      objGet kvs3 "action" = some (.jstr a) →
      (objGet kvs3 "index").bind asInt = none →
      validateDecision (.jobj kvs3) rows st = .indexNotInt) := by
  refine ⟨?_, ?_, ?_, ?_, ?_⟩
  · rcases haS with h | h | h <;> subst h <;>
      by_cases hr : i < 0 ∨ (nMovesIn rows : Int) ≤ i <;>
      by_cases hr2 : i < 0 ∨ (nSwitchesIn rows : Int) ≤ i <;>
      simp [validateDecision, isAct, ha, hi, hst, hr, hr2]
  · rcases haS with h | h | h <;> subst h <;>
      by_cases hr : i < 0 ∨ (nMovesIn rows : Int) ≤ i <;>
      by_cases hr2 : i < 0 ∨ (nSwitchesIn rows : Int) ≤ i <;>
      simp [validateDecision, isAct, ha, hi, hst, hr, hr2]
  · rcases haS with h | h | h <;> subst h <;>
      by_cases hr : i < 0 ∨ (nMovesIn rows : Int) ≤ i <;>
      by_cases hr2 : i < 0 ∨ (nSwitchesIn rows : Int) ≤ i <;>
      simp [validateDecision, isAct, ha, hi, hst, hr, hr2] <;> omega
  · intro kvs2 h2
    rcases hv2 : objGet kvs2 "action" with _ | v
    · simp [validateDecision, isAct, hv2]
    · cases v with
      | jstr s =>
        obtain ⟨hs1, hs2, hs3⟩ := h2 s hv2
        simp [validateDecision, isAct, hv2, hs1, hs2, hs3]
      | jnull => simp [validateDecision, isAct, hv2]
      | jbool b => simp [validateDecision, isAct, hv2]
      | jint n => simp [validateDecision, isAct, hv2]
      | jfloat q => simp [validateDecision, isAct, hv2]
      | jarr xs => simp [validateDecision, isAct, hv2]
      | jobj ms => simp [validateDecision, isAct, hv2]
  · intro kvs3 h3a h3i
    rcases haS with h | h | h <;> subst h <;>
      simp [validateDecision, isAct, h3a, h3i]

/-- Benched Pokémon used by the witnesses. -/
def wBench : PokemonSrc :=
  { species := "Snorlax", types := ["NORMAL"]
    current_hp := some 100, max_hp := some 200, status := none }

/-- Candidate table used by the validator witnesses: two move rows and one
switch row. -/
def wRows : List Row :=
  [Row.mv (moveRow 0 accWMove none), Row.mv (moveRow 1 accCexMove none),
    Row.sw (switchRow 0 wBench)]

/-- Unforced state used by the validator witnesses. -/
def wStateCalm : StateSummary :=
  { turn := 3, force_switch := false
    my_active := dumpMon none, opp_active := dumpMon none
    weather := "none", terrain := "none" }

/-- Witness for C3: a move decision with index 5 against two move
candidates is rejected as out of range. -/
theorem validate_ranges_witness :
    validateDecision (.jobj [("action", .jstr "move"), ("index", .jint 5)])
      wRows wStateCalm = .idxOutMove := by
  have h := validate_ranges [("action", .jstr "move"), ("index", .jint 5)]
    wRows wStateCalm "move" 5 rfl rfl (Or.inl rfl) rfl
  exact h.1.mpr ⟨Or.inl rfl, Or.inr (by decide)⟩

/-- C4: when the forced-switch flag is set, every structurally well-formed
move decision is rejected with `must_switch` whatever its index; structural
failures still take precedence (a bad action still reports `bad_action`,
and a non-integer index still reports `index_not_int`), so the
forced-switch check sits after the structural checks and before the range
checks. -/
theorem validate_must_switch (kvs : List (String × JVal)) (rows : List Row)
    (st : StateSummary) (i : Int)
    (hst : st.force_switch = true)
    (ha : objGet kvs "action" = some (.jstr "move"))
    (hi : (objGet kvs "index").bind asInt = some i) :
    validateDecision (.jobj kvs) rows st = .mustSwitch ∧
    (∀ kvs2 : List (String × JVal),
      (∀ s, objGet kvs2 "action" = some (.jstr s) →
          s ≠ "move" ∧ s ≠ "switch" ∧ s ≠ "force_switch") →
      validateDecision (.jobj kvs2) rows st = .badAction) ∧
    (∀ kvs3 : List (String × JVal),
      objGet kvs3 "action" = some (.jstr "move") →
      (objGet kvs3 "index").bind asInt = none →
      validateDecision (.jobj kvs3) rows st = .indexNotInt) := by
  refine ⟨by simp [validateDecision, isAct, ha, hi, hst], ?_, ?_⟩
  · intro kvs2 h2
    rcases hv2 : objGet kvs2 "action" with _ | v
    · simp [validateDecision, isAct, hv2]
    · cases v with
      | jstr s =>
        obtain ⟨hs1, hs2, hs3⟩ := h2 s hv2
        simp [validateDecision, isAct, hv2, hs1, hs2, hs3]
      | jnull => simp [validateDecision, isAct, hv2]
      | jbool b => simp [validateDecision, isAct, hv2]
      | jint n => simp [validateDecision, isAct, hv2]
      | jfloat q => simp [validateDecision, isAct, hv2]
      | jarr xs => simp [validateDecision, isAct, hv2]
      | jobj ms => simp [validateDecision, isAct, hv2]
  · intro kvs3 h3a h3i
    simp [validateDecision, isAct, h3a, h3i]

/-- Forced state used by the C4 witness. -/
def wStateForced : StateSummary :=
  { wStateCalm with force_switch := true }

/-- Witness for C4: under a forced switch, a move decision with a perfectly
valid index 0 is still rejected with `must_switch`. -/
theorem validate_must_switch_witness :
    validateDecision (.jobj [("action", .jstr "move"), ("index", .jint 0)])
      wRows wStateForced = .mustSwitch :=
  (validate_must_switch [("action", .jstr "move"), ("index", .jint 0)]
    wRows wStateForced 0 rfl rfl rfl).1

/-- One step of the scan: the result at the current position if it yields
an object, else the scan of the remaining positions. -/
lemma extractScan_cons (c : Char) (rest : List Char) :
    extractScan (c :: rest) =
      match goodAt (c :: rest) with
      | some v => some v
      | none => extractScan rest := rfl

/-- The scan of `_extract_json` returns exactly the object of the leftmost
position whose minimal balanced chunk parses as a JSON object, skipping
every earlier position (no opening brace, unbalanced, or unparseable
chunk). -/
lemma extractScan_first (cs : List Char) (v : JVal) :
    extractScan cs = some v ↔
      ∃ i, goodAt (cs.drop i) = some v ∧ ∀ j, j < i → goodAt (cs.drop j) = none := by
  induction cs with
  | nil =>
    simp only [extractScan, List.drop_nil]
    constructor
    · intro h; exact absurd h (by simp)
    · rintro ⟨i, hi, -⟩
      exact absurd hi (by rw [goodAt]; simp)
  | cons c rest ih =>
    rw [extractScan_cons]
    rcases h : goodAt (c :: rest) with _ | v0
    · simp only []
      rw [ih]
      constructor
      · rintro ⟨i, hi, hj⟩
        refine ⟨i + 1, by simpa using hi, ?_⟩
        intro j hjlt
        match j with
        | 0 => simpa using h
        | k + 1 =>
          have : k < i := by omega
          simpa using hj k this
      · rintro ⟨i, hi, hj⟩
        match i with
        | 0 => rw [List.drop_zero] at hi; exact absurd hi (by rw [h]; simp)
        | k + 1 =>
          refine ⟨k, by simpa using hi, ?_⟩
          intro j hjlt
          have := hj (j + 1) (by omega)
          simpa using this
    · simp only []
      constructor
      · intro hv
        refine ⟨0, ?_, by omega⟩
        rw [List.drop_zero, h, hv]
      · rintro ⟨i, hi, hj⟩
        match i with
        | 0 => rw [List.drop_zero, h] at hi; exact hi
        | k + 1 =>
          have := hj 0 (by omega)
          rw [List.drop_zero, h] at this
          exact absurd this (by simp)

/-- C2: JSON extraction prefers the clean whole-text parse when it yields
an object; otherwise it returns exactly the first (leftmost-start)
depth-balanced chunk that parses as a JSON object, tolerating surrounding
text, and fails when no position yields one; on the concrete input
`Sure! {"action":"move","index":1,"reason":"ok"}` it yields the embedded
object. -/
theorem extract_json_spec (t : String) :
    (∀ kvs, loadsL (pyStrip t.toList) = some (.jobj kvs) →
      extractJson t = some (.jobj kvs)) ∧
    ((∀ kvs, loadsL (pyStrip t.toList) ≠ some (.jobj kvs)) → ∀ v,
      (extractJson t = some v ↔
        ∃ i, goodAt ((pyStrip t.toList).drop i) = some v ∧
          ∀ j, j < i → goodAt ((pyStrip t.toList).drop j) = none)) ∧
    extractJson "Sure! \x7b\"action\":\"move\",\"index\":1,\"reason\":\"ok\"\x7d" =
      some (.jobj [("action", .jstr "move"), ("index", .jint 1),
        ("reason", .jstr "ok")]) := by
  refine ⟨?_, ?_, by rfl⟩
  · intro kvs h
    unfold extractJson
    rw [h]
  · intro hno v
    have hrw : extractJson t = extractScan (pyStrip t.toList) := by
      unfold extractJson
      rcases hl : loadsL (pyStrip t.toList) with _ | w
      · rfl
      · cases w with
        | jobj kvs => exact absurd hl (hno kvs)
        | jnull => rfl
        | jbool b => rfl
        | jint n => rfl
        | jfloat q => rfl
        | jstr s => rfl
        | jarr xs => rfl
    rw [hrw]
    exact extractScan_first (pyStrip t.toList) v

/-- Witness for C2: on the concrete commentary-wrapped input the whole-text
parse fails, and the characterization plus the concrete equation both apply
there. -/
theorem extract_json_spec_witness :
    extractJson "Sure! \x7b\"action\":\"move\",\"index\":1,\"reason\":\"ok\"\x7d" =
      some (.jobj [("action", .jstr "move"), ("index", .jint 1),
        ("reason", .jstr "ok")]) ∧
    (∃ i, goodAt ((pyStrip ("Sure! \x7b\"action\":\"move\",\"index\":1,\"reason\":\"ok\"\x7d").toList).drop i) =
        some (.jobj [("action", .jstr "move"), ("index", .jint 1),
          ("reason", .jstr "ok")]) ∧
      ∀ j, j < i →
        goodAt ((pyStrip ("Sure! \x7b\"action\":\"move\",\"index\":1,\"reason\":\"ok\"\x7d").toList).drop j) = none) := by
  have h := extract_json_spec "Sure! \x7b\"action\":\"move\",\"index\":1,\"reason\":\"ok\"\x7d"
  refine ⟨h.2.2, ?_⟩
  have hno : ∀ kvs, loadsL (pyStrip ("Sure! \x7b\"action\":\"move\",\"index\":1,\"reason\":\"ok\"\x7d").toList) ≠
      some (.jobj kvs) := by
    intro kvs hk
    have hl : loadsL (pyStrip ("Sure! \x7b\"action\":\"move\",\"index\":1,\"reason\":\"ok\"\x7d").toList) = none := by rfl
    rw [hl] at hk
    exact absurd hk (by simp)
  exact (h.2.1 hno _).mp h.2.2

/-- A decision returned (rather than raised) by the oracle stage passed the
validator. -/
lemma llmDecide_ok_validate {fb hc : Bool} {raw : String} {rows : List Row}
    {st : StateSummary} {d : JVal}
    (h : llmDecide fb hc raw rows st = .ok d) :
    validateDecision d rows st = .ok := by
  unfold llmDecide at h
  by_cases hfb : fb = true
  · rw [if_pos hfb] at h; exact absurd h (by simp)
  · rw [if_neg hfb] at h
    by_cases hhc : hc = false
    · rw [if_pos hhc] at h; exact absurd h (by simp)
    · rw [if_neg hhc] at h
      rcases he : extractJson raw with _ | dec
      · rw [he] at h; exact absurd h (by simp)
      · rw [he] at h
        rcases hv : validateDecision dec rows st with _ | _ | _ | _ | _ | _ | _ <;>
          simp [hv] at h
        subst h
        exact hv

/-- The move-candidate count of the full table is the length of the
move-row list. -/
lemma nMovesIn_rowsOf (b : Battle) : nMovesIn (rowsOf b) = (moveRowsOf b).length := by
  simp only [nMovesIn, rowsOf, List.countP_append, List.countP_map]
  rw [show ((fun r => Row.kind r == "move") ∘ Row.mv) = fun _ => true from
      by funext r; simp [Row.kind],
    show ((fun r => Row.kind r == "move") ∘ Row.sw) = fun _ => false from
      by funext r; simp [Row.kind]]
  simp [List.countP_true, List.countP_eq_zero]

/-- The switch-candidate count of the full table is the length of the
switch-row list. -/
lemma nSwitchesIn_rowsOf (b : Battle) :
    nSwitchesIn (rowsOf b) = (switchRowsOf b).length := by
  simp only [nSwitchesIn, rowsOf, List.countP_append, List.countP_map]
  rw [show ((fun r => Row.kind r == "switch") ∘ Row.mv) = fun _ => false from
      by funext r; simp [Row.kind],
    show ((fun r => Row.kind r == "switch") ∘ Row.sw) = fun _ => true from
      by funext r; simp [Row.kind]]
  simp [List.countP_true, List.countP_eq_zero]

/-- There are as many move rows as legal moves. -/
lemma moveRowsOf_length (b : Battle) :
    (moveRowsOf b).length = b.available_moves.length := by
  simp [moveRowsOf]

/-- There are as many switch rows as legal switches. -/
lemma switchRowsOf_length (b : Battle) :
    (switchRowsOf b).length = b.available_switches.length := by
  simp [switchRowsOf]

/-- The defensive clamp always lands inside a nonempty list. -/
lemma clampIdx_lt {idx : Int} {n : Nat} (hn : 0 < n) : clampIdx idx n < n := by
  unfold clampIdx
  have h1 : min idx ((n : Int) - 1) ≤ (n : Int) - 1 := min_le_right _ _
  have h2 : max 0 (min idx ((n : Int) - 1)) ≤ (n : Int) - 1 :=
    max_le (by omega) h1
  have h3 : (0 : Int) ≤ max 0 (min idx ((n : Int) - 1)) := le_max_left _ _
  omega

/-- No decision validates against an empty candidate table: the action is
either rejected structurally, or forced to switch, or out of range for the
zero-length candidate subsequences. -/
lemma validate_empty_ne_ok (d : JVal) (st : StateSummary) :
    validateDecision d [] st ≠ .ok := by
  cases d with
  | jobj kvs =>
    unfold validateDecision
    rcases hbi : (objGet kvs "index").bind asInt with _ | i
    · cases hm : isAct (objGet kvs "action") "move" <;>
        cases hs : isAct (objGet kvs "action") "switch" <;>
        cases hf : isAct (objGet kvs "action") "force_switch" <;>
        simp [hm, hs, hf, hbi]
    · have hi : i < 0 ∨ (0 : Int) ≤ i := by omega
      cases hm : isAct (objGet kvs "action") "move" <;>
        cases hs : isAct (objGet kvs "action") "switch" <;>
        cases hf : isAct (objGet kvs "action") "force_switch" <;>
        cases hfs : st.force_switch <;>
        simp [hm, hs, hf, hbi, hfs, hi, nMovesIn, nSwitchesIn]
  | jnull => simp [validateDecision]
  | jbool b => simp [validateDecision]
  | jint n => simp [validateDecision]
  | jfloat q => simp [validateDecision]
  | jstr s => simp [validateDecision]
  | jarr xs => simp [validateDecision]

/-- C1: whenever the oracle stage fails, the fallback decision follows the
fixed priority: switch index 0 when the forced-switch flag is set and a
switch candidate exists; otherwise the move candidate carrying the maximal
heuristic score, at the first such index, when any move candidate exists;
otherwise move index 0. -/
theorem fallback_priority (b : Battle) (fb hc : Bool) (raw : String) (e : OracleErr)
    (hfail : llmDecide fb hc raw (rowsOf b) (stateOf b) = .error e) :
    (b.force_switch = true → switchRowsOf b ≠ [] →
      decisionOf b fb hc raw = { action := "switch", index := 0 }) ∧
    (¬(b.force_switch = true ∧ switchRowsOf b ≠ []) → moveRowsOf b ≠ [] →
      decisionOf b fb hc raw =
          { action := "move", index := (argmaxScore (moveRowsOf b) : Int) } ∧
        argmaxScore (moveRowsOf b) < (moveRowsOf b).length ∧
        (∀ j, j < (moveRowsOf b).length →
          scoreAt (moveRowsOf b) j ≤ scoreAt (moveRowsOf b) (argmaxScore (moveRowsOf b))) ∧
        (∀ j, j < argmaxScore (moveRowsOf b) →
          scoreAt (moveRowsOf b) j < scoreAt (moveRowsOf b) (argmaxScore (moveRowsOf b)))) ∧
    (¬(b.force_switch = true ∧ switchRowsOf b ≠ []) → moveRowsOf b = [] →
      decisionOf b fb hc raw = { action := "move", index := 0 }) := by
  have hd : decisionOf b fb hc raw =
      fallbackDec (stateOf b).force_switch (moveRowsOf b) (switchRowsOf b) := by
    unfold decisionOf
    rw [hfail]
  have hsf : (stateOf b).force_switch = b.force_switch := rfl
  refine ⟨?_, ?_, ?_⟩
  · intro hfs hsw
    rw [hd]
    unfold fallbackDec
    rw [hsf, if_pos ⟨hfs, hsw⟩]
  · intro hcon hmv
    rw [hd]
    unfold fallbackDec
    rw [hsf, if_neg hcon, if_pos hmv]
    have hpos : 0 < (moveRowsOf b).length := List.length_pos.mpr hmv
    exact ⟨rfl, pyMaxIdx_spec (scoreAt (moveRowsOf b)) _ hpos⟩
  · intro hcon hmv
    rw [hd]
    unfold fallbackDec
    rw [hsf, if_neg hcon, if_neg (by rw [hmv]; simp)]

/-- Battle used by the emission and force-switch witnesses: one legal move
and one legal switch, no forced switch. -/
def wBattle : Battle :=
  { active_pokemon := some wBench, opponent_active_pokemon := none
    available_moves := [accWMove], available_switches := [wBench]
    force_switch := false, turn := 1, weather := none, terrain := none }

/-- Battle used by the fallback witness: forced switch with two switch
candidates. -/
def wBattleFS : Battle :=
  { wBattle with force_switch := true, available_switches := [wBench, wBench] }

/-- Battle with no legal moves and no legal switches. -/
def wBattleEmpty : Battle :=
  { wBattle with available_moves := [], available_switches := [] }

/-- Witness for C1: with the oracle forced to fail, a forced switch and two
switch candidates, the fallback decision is switch index 0. -/
theorem fallback_priority_witness :
    decisionOf wBattleFS true true "" = { action := "switch", index := 0 } := by
  have h := fallback_priority wBattleFS true true "" OracleErr.forcedBad rfl
  refine h.1 rfl (List.length_pos.mp ?_)
  rw [switchRowsOf_length]
  decide

/-- C7: the turn decision is a total function of the snapshot (the model
returns an order on every input, never an exception), and on a snapshot
with no legal moves and no legal switches it defers to the battle client's
own random-choice fallback. -/
theorem empty_candidates_random (b : Battle) (fb hc : Bool) (raw : String)
    (hm : b.available_moves = []) (hs : b.available_switches = []) :
    chooseMove b fb hc raw = .randomChoice := by
  have hmr : moveRowsOf b = [] := by rw [moveRowsOf, hm]; rfl
  have hsr : switchRowsOf b = [] := by rw [switchRowsOf, hs]; rfl
  have hrows : rowsOf b = [] := by rw [rowsOf, hmr, hsr]; rfl
  have hdec : decisionOf b fb hc raw = { action := "move", index := 0 } := by
    unfold decisionOf
    rcases hor : llmDecide fb hc raw (rowsOf b) (stateOf b) with e | d
    · show fallbackDec (stateOf b).force_switch (moveRowsOf b) (switchRowsOf b) = _
      unfold fallbackDec
      rw [hmr, hsr]
      simp
    · exact absurd (llmDecide_ok_validate hor)
        (by rw [hrows]; exact validate_empty_ne_ok d (stateOf b))
  unfold chooseMove emitOrder
  rw [hdec]
  rw [if_neg (by rw [hmr]; simp), if_neg (by rw [hsr]; simp), if_neg (by rw [hm]; simp)]

/-- Witness for C7 at a concrete empty snapshot. -/
theorem empty_candidates_random_witness :
    chooseMove wBattleEmpty false false "" = .randomChoice :=
  empty_candidates_random wBattleEmpty false false "" rfl rfl

/-- C8: whatever decision comes out of the pipeline, the emitted order
indexes the original legal-moves list (for move or force_switch decisions)
or the original legal-switches list (for switch decisions) strictly inside
its bounds, thanks to the defensive clamp. -/
theorem emit_in_bounds (b : Battle) (fb hc : Bool) (raw : String) :
    (∀ i, chooseMove b fb hc raw = .useMove i → i < b.available_moves.length) ∧
    (∀ i, chooseMove b fb hc raw = .useSwitch i → i < b.available_switches.length) := by
  unfold chooseMove emitOrder
  by_cases h1 : ((decisionOf b fb hc raw).action = "move" ∨
      (decisionOf b fb hc raw).action = "force_switch") ∧ moveRowsOf b ≠ []
  · rw [if_pos h1]
    constructor
    · intro i hi
      injection hi with h
      rw [← h]
      apply clampIdx_lt
      have hp := List.length_pos.mpr h1.2
      rw [moveRowsOf_length] at hp
      exact hp
    · intro i hi
      exact absurd hi (by simp)
  · rw [if_neg h1]
    by_cases h2 : (decisionOf b fb hc raw).action = "switch" ∧ switchRowsOf b ≠ []
    · rw [if_pos h2]
      constructor
      · intro i hi
        exact absurd hi (by simp)
      · intro i hi
        injection hi with h
        rw [← h]
        apply clampIdx_lt
        have hp := List.length_pos.mpr h2.2
        rw [switchRowsOf_length] at hp
        exact hp
    · rw [if_neg h2]
      by_cases h3 : b.available_moves ≠ []
      · rw [if_pos h3]
        constructor
        · intro i hi
          injection hi with h
          rw [← h]
          exact List.length_pos.mpr h3
        · intro i hi
          exact absurd hi (by simp)
      · rw [if_neg h3]
        constructor <;> intro i hi <;> exact absurd hi (by simp)

/-- Witness for C8: on the concrete one-move battle with a validated move
decision, the emitted index 0 is inside the legal-moves list. -/
theorem emit_in_bounds_witness : (0 : Nat) < wBattle.available_moves.length := by
  have h := emit_in_bounds wBattle false true "\x7b\"action\":\"move\",\"index\":0\x7d"
  exact h.1 0 rfl

/-- C9: the whole pipeline never mutates the inbound battle object - with
the battle threaded through every stage as explicit state, the battle that
comes out is the one that went in, and the computed order is unchanged. -/
theorem no_battle_mutation (b : Battle) (fb hc : Bool) (raw : String) :
    (chooseMoveFrame b fb hc raw).2 = b ∧
      (chooseMoveFrame b fb hc raw).1 = chooseMove b fb hc raw :=
  ⟨rfl, rfl⟩

/-- Unfolding of the validator on an object decision, with the field lookup
exposed. -/
lemma validateDecision_obj (kvs : List (String × JVal)) (rows : List Row)
    (st : StateSummary) :
    validateDecision (.jobj kvs) rows st =
      if isAct (objGet kvs "action") "move" = false ∧
          isAct (objGet kvs "action") "switch" = false ∧
          isAct (objGet kvs "action") "force_switch" = false then .badAction
      else
        match (objGet kvs "index").bind asInt with
        | none => .indexNotInt
        | some i =>
          if st.force_switch = true ∧ isAct (objGet kvs "action") "move" = true then
            .mustSwitch
          else if (isAct (objGet kvs "action") "move" = true ∨
              isAct (objGet kvs "action") "force_switch" = true)
              ∧ (i < 0 ∨ (nMovesIn rows : Int) ≤ i) then .idxOutMove
          else if isAct (objGet kvs "action") "switch" = true
              ∧ (i < 0 ∨ (nSwitchesIn rows : Int) ≤ i) then .idxOutSwitch
          else .ok := rfl

/-- A force_switch decision that passed validation carries an integer index
inside the move-candidate range (the validator range-checks force_switch
against the move candidates, not the switch candidates). -/
lemma validate_ok_force_range {kvs : List (String × JVal)} {rows : List Row}
    {st : StateSummary}
    (hobj : objGet kvs "action" = some (.jstr "force_switch"))
    (hval : validateDecision (.jobj kvs) rows st = .ok) :
    ∃ i, (objGet kvs "index").bind asInt = some i ∧
      0 ≤ i ∧ i < (nMovesIn rows : Int) := by
  have e1 : ("force_switch" == "move") = false := rfl
  have e2 : ("force_switch" == "switch") = false := rfl
  have e3 : ("force_switch" == "force_switch") = true := rfl
  rw [validateDecision_obj, hobj] at hval
  rcases hbi : (objGet kvs "index").bind asInt with _ | i <;> rw [hbi] at hval
  · simp [isAct, e1, e2, e3] at hval
  · refine ⟨i, rfl, ?_⟩
    by_cases hr : i < 0 ∨ (nMovesIn rows : Int) ≤ i
    · simp [isAct, e1, e2, e3, hr] at hval
    · omega

/-- C10: a validated force_switch decision is executed exactly like a move
decision: the emitted order is built from the original legal-moves list at
the clamped index, not from the switch list. -/
theorem force_switch_emits_move (b : Battle) (fb hc : Bool) (raw : String) (d : JVal)
    (hok : llmDecide fb hc raw (rowsOf b) (stateOf b) = .ok d)
    (hact : (toDecision d).action = "force_switch") :
    chooseMove b fb hc raw =
      .useMove (clampIdx (toDecision d).index b.available_moves.length) := by
  have hval := llmDecide_ok_validate hok
  obtain ⟨kvs, rfl, hobj⟩ :
      ∃ kvs, d = .jobj kvs ∧ objGet kvs "action" = some (.jstr "force_switch") := by
    cases d with
    | jobj kvs =>
      refine ⟨kvs, rfl, ?_⟩
      rw [show (toDecision (.jobj kvs)).action =
          (match objGet kvs "action" with
           | some (.jstr s) => s
           | _ => "") from rfl] at hact
      generalize ho : objGet kvs "action" = o at hact
      cases o with
      | none => exact absurd (show "" = "force_switch" from hact) (by decide)
      | some w =>
        cases w with
        | jstr s =>
          have hs : s = "force_switch" := hact
          rw [hs]
        | jnull => exact absurd (show "" = "force_switch" from hact) (by decide)
        | jbool c => exact absurd (show "" = "force_switch" from hact) (by decide)
        | jint n => exact absurd (show "" = "force_switch" from hact) (by decide)
        | jfloat q => exact absurd (show "" = "force_switch" from hact) (by decide)
        | jarr xs => exact absurd (show "" = "force_switch" from hact) (by decide)
        | jobj ms => exact absurd (show "" = "force_switch" from hact) (by decide)
    | jnull => exact absurd (show "" = "force_switch" from hact) (by decide)
    | jbool c => exact absurd (show "" = "force_switch" from hact) (by decide)
    | jint n => exact absurd (show "" = "force_switch" from hact) (by decide)
    | jfloat q => exact absurd (show "" = "force_switch" from hact) (by decide)
    | jstr s => exact absurd (show "" = "force_switch" from hact) (by decide)
    | jarr xs => exact absurd (show "" = "force_switch" from hact) (by decide)
  obtain ⟨i, hbi, hge, hlt⟩ := validate_ok_force_range hobj hval
  have hmv : moveRowsOf b ≠ [] := by
    refine List.length_pos.mp ?_
    rw [← nMovesIn_rowsOf]
    omega
  have hdec : decisionOf b fb hc raw = toDecision (.jobj kvs) := by
    unfold decisionOf
    rw [hok]
  unfold chooseMove
  rw [hdec]
  unfold emitOrder
  rw [if_pos ⟨Or.inr hact, hmv⟩]

/-- Witness for C10: a validated force_switch decision with index 0 on the
one-move battle yields the move order at the clamped index. -/
theorem force_switch_emits_move_witness :
    chooseMove wBattle false true "\x7b\"action\":\"force_switch\",\"index\":0\x7d" =
      .useMove (clampIdx
        (toDecision (.jobj [("action", .jstr "force_switch"), ("index", .jint 0)])).index
        wBattle.available_moves.length) :=
  force_switch_emits_move wBattle false true
    "\x7b\"action\":\"force_switch\",\"index\":0\x7d"
    (.jobj [("action", .jstr "force_switch"), ("index", .jint 0)]) rfl rfl

end PokeLLM
